import Mathlib

/-
  Verification of the christmastree repository's gesture / camera core.

  Part 1 models the discrete layer over exact rationals:
    - the gesture classifier `detectGesture` (useHandGesture.ts),
    - the per-frame hand-result processor `processResults` (useHandGesture.ts),
    - the application state machine `handleGestureChange` (Index page),
    - the pointer fallback `handleMouseDown` (useMouseFallback.ts).

  Part 2 (further below) models the camera controller (Scene.tsx) over ℝ.

  Conventions of the embedding:
    - JS numbers are modelled as exact rationals (discrete layer) or reals
      (camera layer); `Math.random()` becomes an explicit parameter r with
      0 ≤ r < 1.
    - The source computes Euclidean distances with `Math.sqrt` and only ever
      compares them against the constant 0.06; since √d < c ↔ d < c² for
      c > 0 and d ≥ 0, the discrete layer stores and compares the squared
      distance against 0.06² instead, which keeps every definition
      executable.  (The camera layer keeps the square root.)
-/

/- ===== Gesture vocabulary and application states ===== -/

inductive GestureType where
  | none
  | fist
  | open'
  | pinch
deriving DecidableEq, Repr

inductive TreeState where
  | tree
  | galaxy
  | focus
deriving DecidableEq, Repr

/- ===== Gesture classifier (useHandGesture.ts, detectGesture) ===== -/

structure Landmark where
  x : ℚ
  y : ℚ
  z : ℚ
deriving DecidableEq, Repr

instance : Inhabited Landmark := ⟨⟨0, 0, 0⟩⟩

/-- Squared form of `calculateFingerDistance` (useHandGesture.ts line 30):
the source returns `Math.sqrt` of this sum; every consumer compares the
result against 0.06, so the squared form against 0.06² is equivalent. -/
def calculateFingerDistanceSq (landmarks : List Landmark) (finger1 finger2 : ℕ) : ℚ :=
  let p1 := landmarks.getD finger1 default
  let p2 := landmarks.getD finger2 default
  (p1.x - p2.x) ^ 2 + (p1.y - p2.y) ^ 2 + (p1.z - p2.z) ^ 2

/-- Extended-finger count from `detectGesture` (lines 52-57): a non-thumb
finger is extended when its tip's y is below (smaller than) its proximal
joint's y. -/
def extendedCount (lm : List Landmark) : ℕ :=
  let indexExtended := decide ((lm.getD 8 default).y < (lm.getD 5 default).y)
  let middleExtended := decide ((lm.getD 12 default).y < (lm.getD 9 default).y)
  let ringExtended := decide ((lm.getD 16 default).y < (lm.getD 13 default).y)
  let pinkyExtended := decide ((lm.getD 20 default).y < (lm.getD 17 default).y)
  [indexExtended, middleExtended, ringExtended, pinkyExtended].count true

/-- `detectGesture` (useHandGesture.ts lines 41-63).  `Option.none` models a
missing landmark array (the `!landmarks` guard). -/
def detectGesture (landmarks : Option (List Landmark)) : GestureType :=
  match landmarks with
  | Option.none => GestureType.none
  | Option.some lm =>
    if lm.length < 21 then GestureType.none
    else
      let pinchDistSq := calculateFingerDistanceSq lm 4 8
      if pinchDistSq < (6 / 100 : ℚ) ^ 2 then GestureType.pinch
      else
        if 3 ≤ extendedCount lm then GestureType.open'
        else if extendedCount lm ≤ 1 then GestureType.fist
        else GestureType.none

/- ===== Hand input source per-frame processing (processResults) ===== -/

structure HandGestureState where
  gesture : GestureType
  handPosition : Option (ℚ × ℚ)
  pinchDistanceSq : ℚ
  isTracking : Bool
deriving DecidableEq, Repr

/-- The hook's persistent data: the published `HandGestureState` plus the
single-slot `lastGestureRef` register. -/
structure HandLoopState where
  state : HandGestureState
  lastGesture : GestureType
deriving DecidableEq, Repr

/-- The `state.isTracking` read by the no-hand branch (line 174) is not the
live state: `processResults` is defined inside the `useEffect` whose
dependency list `[enabled, calculateFingerDistance, detectGesture]` is
stable across renders (both callbacks are useCallbacks with constant
dependencies), so the closure keeps the `state` of the render in which the
effect ran — the mount state of lines 12-17, whose `isTracking` is `false`.
The guard therefore always reads this frozen value. -/
def capturedMountTracking : Bool := false

/-- `processResults` (useHandGesture.ts lines 147-178).  Input is the frame's
landmark array when a hand is present, `Option.none` otherwise.  Returns the
new persistent state and the list of gesture-change events delivered to
`onGestureChange` during the call (in order).  The no-hand branch guards on
the effect-closure-captured `state.isTracking` (passed as
`capturedTracking`, see `capturedMountTracking`), not the live value; its
`setState` uses a functional update, so the update itself would read the
live state; it calls `onGestureChange` nowhere and leaves `lastGestureRef`
untouched. -/
def processResults (capturedTracking : Bool) (s : HandLoopState)
    (landmarks : Option (List Landmark)) : HandLoopState × List GestureType :=
  match landmarks with
  | Option.some lm =>
    let detectedGesture := detectGesture (Option.some lm)
    let updated :=
      if detectedGesture ≠ s.lastGesture then (detectedGesture, [detectedGesture])
      else (s.lastGesture, ([] : List GestureType))
    let palmBase := lm.getD 0 default
    let middleFingerMcp := lm.getD 9 default
    let centerX := (palmBase.x + middleFingerMcp.x) / 2
    let centerY := (palmBase.y + middleFingerMcp.y) / 2
    let pinchDistSq := calculateFingerDistanceSq lm 4 8
    (⟨{ isTracking := true, gesture := detectedGesture,
        handPosition := Option.some (1 - centerX, centerY),
        pinchDistanceSq := pinchDistSq }, updated.1⟩, updated.2)
  | Option.none =>
    if capturedTracking then
      (⟨{ s.state with isTracking := false, gesture := GestureType.none }, s.lastGesture⟩, [])
    else (s, [])

/- ===== Application state machine (Index page, handleGestureChange) ===== -/

structure AppState where
  treeState : TreeState
  focusedPhotoIndex : Option ℕ
deriving DecidableEq, Repr

/-- `photoCount` local of `handleGestureChange` (line 96): the photo list's
length, defaulting to 12 when the list is empty. -/
def photoCount (photos : List String) : ℕ :=
  if photos.length > 0 then photos.length else 12

/-- `Math.floor(r * bound)` for the random photo pick (line 97). -/
def randomPhotoIndex (r : ℚ) (bound : ℕ) : ℕ :=
  (Int.floor (r * (bound : ℚ))).toNat

/-- `handleGestureChange` (Index page lines 80-106); `r` is the value of
`Math.random()`.  A `none` gesture hits no `case` of the `switch` and is a
no-op. -/
def handleGestureChange (photos : List String) (r : ℚ) (gesture : GestureType)
    (s : AppState) : AppState :=
  match gesture with
  | GestureType.fist => { treeState := TreeState.tree, focusedPhotoIndex := Option.none }
  | GestureType.open' => { treeState := TreeState.galaxy, focusedPhotoIndex := Option.none }
  | GestureType.pinch =>
    if s.treeState = TreeState.galaxy then
      let randomIndex := randomPhotoIndex r (min (photoCount photos) 12)
      { treeState := TreeState.focus, focusedPhotoIndex := Option.some randomIndex }
    else if s.treeState = TreeState.focus then
      { treeState := TreeState.galaxy, focusedPhotoIndex := Option.none }
    else s
  | GestureType.none => s

/- ===== Pointer fallback (useMouseFallback.ts) ===== -/

inductive MouseEvent' where
  | stateChange : TreeState → MouseEvent'
  | gestureChange : GestureType → MouseEvent'
deriving DecidableEq, Repr

structure MouseFallbackState where
  isDragging : Bool
  simulatedGesture : GestureType
  lastClick : ℤ
  dragStart : ℚ × ℚ
  isPinching : Bool
  initialPinchDistSq : Option ℚ
deriving DecidableEq, Repr

/-- `handleMouseDown` (useMouseFallback.ts lines 38-72).  `now` is
`Date.now()`; the returned list collects the `onStateChange` /
`onGestureChange` calls made during the handler, in order. -/
def handleMouseDown (enabled : Bool) (currentState : TreeState)
    (buttons button : ℕ) (now : ℤ) (clientX clientY : ℚ)
    (m : MouseFallbackState) : MouseFallbackState × List MouseEvent' :=
  if enabled = false then (m, [])
  else if buttons = 3 then
    if m.isPinching = false then
      ({ m with simulatedGesture := GestureType.pinch, isPinching := true, lastClick := 0 },
       [MouseEvent'.gestureChange GestureType.pinch])
    else ({ m with lastClick := 0 }, [])
  else if button = 0 ∧ now - m.lastClick < 300 then
    ({ m with lastClick := 0 },
     [MouseEvent'.stateChange
        (if currentState ≠ TreeState.focus then
          (if currentState = TreeState.tree then TreeState.galaxy else TreeState.tree)
        else TreeState.galaxy)])
  else
    ({ m with lastClick := now, isDragging := true,
              dragStart := (clientX, clientY),
              simulatedGesture := GestureType.open' }, [])

/-- `handleTouchStart` (useMouseFallback.ts lines 117-134), needed to relate
touch input to the state machine: it only updates the simulated gesture and
touch refs (the two-finger distance is `Math.hypot`; its square is stored
here), and emits no state-change or gesture-change event. -/
def handleTouchStart (enabled : Bool) (touchCount : ℕ) (p1 p2 : ℚ × ℚ)
    (m : MouseFallbackState) : MouseFallbackState × List MouseEvent' :=
  if enabled = false then (m, [])
  else if touchCount = 1 then
    ({ m with dragStart := p1, simulatedGesture := GestureType.open' }, [])
  else if touchCount = 2 then
    ({ m with
        initialPinchDistSq := Option.some ((p1.1 - p2.1) ^ 2 + (p1.2 - p2.2) ^ 2),
        simulatedGesture := GestureType.pinch }, [])
  else (m, [])

/-- The Index page's wiring of mouse events (lines 136-142):
`onStateChange := setTreeState` (touches only the `treeState` field) and
`onGestureChange := handleGestureChange`. -/
def applyMouseEvent (photos : List String) (r : ℚ) (s : AppState) :
    MouseEvent' → AppState
  | MouseEvent'.stateChange t => { s with treeState := t }
  | MouseEvent'.gestureChange g => handleGestureChange photos r g s

def applyMouseEvents (photos : List String) (r : ℚ) (s : AppState)
    (evs : List MouseEvent') : AppState :=
  evs.foldl (applyMouseEvent photos r) s

/- ===== Discrete-layer claims ===== -/

/-- C1: the application state machine over {tree, galaxy, focus} follows the
canonical gesture table: fist always yields tree with the selection cleared;
open always yields galaxy with the selection cleared; pinch in galaxy yields
focus with a photo index in [0, min(photoCount, 12)); pinch in focus yields
galaxy with the selection cleared; pinch in tree and a classified none are
no-ops; nothing else changes the state. -/
theorem claim_C1_transition_table (photos : List String) (r : ℚ) (s : AppState)
    (hr0 : 0 ≤ r) (hr1 : r < 1) :
    handleGestureChange photos r GestureType.fist s
        = { treeState := TreeState.tree, focusedPhotoIndex := Option.none }
    ∧ handleGestureChange photos r GestureType.open' s
        = { treeState := TreeState.galaxy, focusedPhotoIndex := Option.none }
    ∧ (s.treeState = TreeState.galaxy →
        (handleGestureChange photos r GestureType.pinch s).treeState = TreeState.focus
        ∧ ∃ i : ℕ, (handleGestureChange photos r GestureType.pinch s).focusedPhotoIndex
              = Option.some i
            ∧ i < min (photoCount photos) 12)
    ∧ (s.treeState = TreeState.focus →
        handleGestureChange photos r GestureType.pinch s
          = { treeState := TreeState.galaxy, focusedPhotoIndex := Option.none })
    ∧ (s.treeState = TreeState.tree →
        handleGestureChange photos r GestureType.pinch s = s)
    ∧ handleGestureChange photos r GestureType.none s = s := by
  refine ⟨rfl, rfl, ?_, ?_, ?_, rfl⟩
  · intro hgal
    have hb : 1 ≤ min (photoCount photos) 12 := by
      have : 1 ≤ photoCount photos := by
        unfold photoCount
        split <;> omega
      omega
    have hidx : randomPhotoIndex r (min (photoCount photos) 12)
        < min (photoCount photos) 12 := by
      unfold randomPhotoIndex
      have hmpos : (0 : ℚ) < ((min (photoCount photos) 12 : ℕ) : ℚ) := by
        exact_mod_cast hb.trans_lt' (by norm_num)
      have hlt : r * ((min (photoCount photos) 12 : ℕ) : ℚ)
          < ((min (photoCount photos) 12 : ℕ) : ℚ) := by
        nlinarith
      have hfl : Int.floor (r * ((min (photoCount photos) 12 : ℕ) : ℚ))
          < ((min (photoCount photos) 12 : ℕ) : ℤ) := by
        exact Int.floor_lt.mpr (by exact_mod_cast hlt)
      omega
    refine ⟨?_, randomPhotoIndex r (min (photoCount photos) 12), ?_, hidx⟩ <;>
      simp [handleGestureChange, hgal]
  · intro hfoc
    have : s.treeState ≠ TreeState.galaxy := by simp [hfoc]
    simp [handleGestureChange, this, hfoc]
  · intro htree
    have h1 : s.treeState ≠ TreeState.galaxy := by simp [htree]
    have h2 : s.treeState ≠ TreeState.focus := by simp [htree]
    simp [handleGestureChange, h1, h2]

/-- Witness for C1 at photos = [], r = 0, state galaxy. -/
theorem claim_C1_witness :
    handleGestureChange [] 0 GestureType.fist ⟨TreeState.galaxy, Option.none⟩
        = { treeState := TreeState.tree, focusedPhotoIndex := Option.none }
    ∧ handleGestureChange [] 0 GestureType.open' ⟨TreeState.galaxy, Option.none⟩
        = { treeState := TreeState.galaxy, focusedPhotoIndex := Option.none }
    ∧ ((⟨TreeState.galaxy, Option.none⟩ : AppState).treeState = TreeState.galaxy →
        (handleGestureChange [] 0 GestureType.pinch
            ⟨TreeState.galaxy, Option.none⟩).treeState = TreeState.focus
        ∧ ∃ i : ℕ, (handleGestureChange [] 0 GestureType.pinch
              ⟨TreeState.galaxy, Option.none⟩).focusedPhotoIndex = Option.some i
            ∧ i < min (photoCount []) 12)
    ∧ ((⟨TreeState.galaxy, Option.none⟩ : AppState).treeState = TreeState.focus →
        handleGestureChange [] 0 GestureType.pinch ⟨TreeState.galaxy, Option.none⟩
          = { treeState := TreeState.galaxy, focusedPhotoIndex := Option.none })
    ∧ ((⟨TreeState.galaxy, Option.none⟩ : AppState).treeState = TreeState.tree →
        handleGestureChange [] 0 GestureType.pinch ⟨TreeState.galaxy, Option.none⟩
          = ⟨TreeState.galaxy, Option.none⟩)
    ∧ handleGestureChange [] 0 GestureType.none ⟨TreeState.galaxy, Option.none⟩
        = ⟨TreeState.galaxy, Option.none⟩ :=
  claim_C1_transition_table [] 0 ⟨TreeState.galaxy, Option.none⟩
    (by decide) (by decide)

/-- C2: the classifier returns none for an absent or short (< 21 point)
snapshot, and for any full 21-point snapshot whose thumb-tip/index-tip
distance is below 0.06 (equivalently, squared distance below 0.06²) it
returns pinch, regardless of every other finger position. -/
theorem claim_C2_pinch_precedence :
    detectGesture Option.none = GestureType.none
    ∧ (∀ lm : List Landmark, lm.length < 21 →
        detectGesture (Option.some lm) = GestureType.none)
    ∧ (∀ lm : List Landmark, lm.length = 21 →
        calculateFingerDistanceSq lm 4 8 < (6 / 100 : ℚ) ^ 2 →
        detectGesture (Option.some lm) = GestureType.pinch) := by
  refine ⟨rfl, ?_, ?_⟩
  · intro lm hshort
    simp [detectGesture, hshort]
  · intro lm hlen hpinch
    simp [detectGesture, hlen, hpinch]

/-- Witness for C2: the all-zero 21-point snapshot has thumb-index distance
0 < 0.06 and classifies as pinch. -/
theorem claim_C2_witness :
    detectGesture Option.none = GestureType.none
    ∧ detectGesture (Option.some []) = GestureType.none
    ∧ detectGesture (Option.some (List.replicate 21 ⟨0, 0, 0⟩)) = GestureType.pinch :=
  ⟨claim_C2_pinch_precedence.1,
   claim_C2_pinch_precedence.2.1 [] (by decide),
   claim_C2_pinch_precedence.2.2 (List.replicate 21 ⟨0, 0, 0⟩) (by decide)
     (by norm_num [calculateFingerDistanceSq])⟩

/-- C3: on a full 21-point snapshot with thumb-index distance not below
0.06, the classifier counts the extended fingers among index, middle, ring,
pinky (tip y smaller than proximal-joint y) and returns open when the count
is at least 3, fist when it is at most 1, and none otherwise (count 2). -/
theorem claim_C3_extended_count (lm : List Landmark) (hlen : lm.length = 21)
    (hfar : ¬ calculateFingerDistanceSq lm 4 8 < (6 / 100 : ℚ) ^ 2) :
    (3 ≤ extendedCount lm → detectGesture (Option.some lm) = GestureType.open')
    ∧ (extendedCount lm ≤ 1 → detectGesture (Option.some lm) = GestureType.fist)
    ∧ (extendedCount lm = 2 → detectGesture (Option.some lm) = GestureType.none) := by
  refine ⟨?_, ?_, ?_⟩
  · intro h3
    simp [detectGesture, hlen, hfar, h3]
  · intro h1
    have hn3 : ¬ 3 ≤ extendedCount lm := by omega
    simp [detectGesture, hlen, hfar, hn3, h1]
  · intro h2
    have hn3 : ¬ 3 ≤ extendedCount lm := by omega
    have hn1 : ¬ extendedCount lm ≤ 1 := by omega
    simp [detectGesture, hlen, hfar, hn3, hn1]

/-- Concrete 21-point snapshot for the C3 witness: thumb tip far from index
tip, and all four non-thumb fingertips above their proximal joints. -/
def c3Snapshot : List Landmark :=
  [⟨0, 5, 0⟩, ⟨0, 5, 0⟩, ⟨0, 5, 0⟩, ⟨0, 5, 0⟩, ⟨0, 5, 0⟩,
   ⟨0, 5, 0⟩, ⟨0, 5, 0⟩, ⟨0, 5, 0⟩, ⟨1, 1, 0⟩, ⟨0, 5, 0⟩,
   ⟨0, 5, 0⟩, ⟨0, 5, 0⟩, ⟨0, 1, 0⟩, ⟨0, 5, 0⟩, ⟨0, 5, 0⟩,
   ⟨0, 5, 0⟩, ⟨0, 1, 0⟩, ⟨0, 5, 0⟩, ⟨0, 5, 0⟩, ⟨0, 5, 0⟩,
   ⟨0, 1, 0⟩]

/-- Witness for C3 at `c3Snapshot` (4 fingers extended, thumb far). -/
theorem claim_C3_witness :
    (3 ≤ extendedCount c3Snapshot →
      detectGesture (Option.some c3Snapshot) = GestureType.open')
    ∧ (extendedCount c3Snapshot ≤ 1 →
      detectGesture (Option.some c3Snapshot) = GestureType.fist)
    ∧ (extendedCount c3Snapshot = 2 →
      detectGesture (Option.some c3Snapshot) = GestureType.none) :=
  claim_C3_extended_count c3Snapshot (by decide)
    (by norm_num [calculateFingerDistanceSq, c3Snapshot])

/-- C4: gesture-change emission is edge-triggered.  On every present-hand
frame, `processResults` emits exactly one change event iff the classified
gesture differs from the previous-gesture register (and then the register
holds the classified value); feeding the same snapshot twice in a row from
a differing register emits exactly one event; a classified none is a valid
edge target. -/
theorem claim_C4_edge_triggered :
    (∀ (c : Bool) (s : HandLoopState) (lm : List Landmark),
      (processResults c s (Option.some lm)).2
        = (if detectGesture (Option.some lm) ≠ s.lastGesture
            then [detectGesture (Option.some lm)] else [])
      ∧ (processResults c s (Option.some lm)).1.lastGesture
          = detectGesture (Option.some lm))
    ∧ (∀ (c : Bool) (s : HandLoopState) (lm : List Landmark),
        detectGesture (Option.some lm) ≠ s.lastGesture →
        ((processResults c s (Option.some lm)).2
          ++ (processResults c (processResults c s (Option.some lm)).1
                (Option.some lm)).2).length = 1)
    ∧ (∀ (c : Bool) (s : HandLoopState) (lm : List Landmark),
        detectGesture (Option.some lm) = GestureType.none →
        s.lastGesture ≠ GestureType.none →
        (processResults c s (Option.some lm)).2 = [GestureType.none]) := by
  refine ⟨?_, ?_, ?_⟩
  · intro c s lm
    by_cases h : detectGesture (Option.some lm) = s.lastGesture <;>
      simp [processResults, h]
  · intro c s lm h
    simp [processResults, h]
  · intro c s lm hnone hlast
    have h : GestureType.none ≠ s.lastGesture := fun hc => hlast hc.symm
    simp [processResults, hnone, h]

/-- Witness for C4: register = open', all-zero snapshot classifies pinch. -/
theorem claim_C4_witness :
    ((processResults capturedMountTracking
        ⟨⟨GestureType.open', Option.none, 1, true⟩, GestureType.open'⟩
        (Option.some (List.replicate 21 ⟨0, 0, 0⟩))).2
      ++ (processResults capturedMountTracking
            (processResults capturedMountTracking
              ⟨⟨GestureType.open', Option.none, 1, true⟩, GestureType.open'⟩
              (Option.some (List.replicate 21 ⟨0, 0, 0⟩))).1
            (Option.some (List.replicate 21 ⟨0, 0, 0⟩))).2).length = 1 :=
  claim_C4_edge_triggered.2.1 capturedMountTracking
    ⟨⟨GestureType.open', Option.none, 1, true⟩, GestureType.open'⟩
    (List.replicate 21 ⟨0, 0, 0⟩)
    (by norm_num [detectGesture, calculateFingerDistanceSq]; decide)

/-- Hand-loop state for the C5 counterexample: tracking, with the
previous-gesture register holding open'. -/
def c5State : HandLoopState :=
  ⟨⟨GestureType.open', Option.some (1/2, 1/2), 1, true⟩, GestureType.open'⟩

/-- C5 counterexample: on a no-hand frame while the published state is
tracking with previous gesture open' (≠ none), `processResults` does
nothing at all: the published `isTracking` stays true (not set to false),
no gesture-change event is emitted, and the register stays open'.  The
guard of the no-hand branch (line 174) reads the effect closure's frozen
capture of `state.isTracking` — false since mount — so the branch is dead,
and the branch body would anyway only call `setState`, never
`onGestureChange`. -/
theorem claim_C5_counterexample :
    c5State.state.isTracking = true
    ∧ c5State.lastGesture ≠ GestureType.none
    ∧ (processResults capturedMountTracking c5State Option.none).2 = []
    ∧ (processResults capturedMountTracking c5State Option.none).1.state.isTracking
        = true
    ∧ (processResults capturedMountTracking c5State Option.none).1 = c5State := by
  exact ⟨rfl, by decide, rfl, rfl, rfl⟩

/-- C5 amended: a no-hand frame is a complete no-op of the hand input
source.  Its branch guards on the effect-closure-captured `isTracking`,
frozen at the mount value false, so the published state (including
`isTracking` and the published gesture), the previous-gesture register and
the event output are all unchanged: no none edge is forced and `isTracking`
is never set to false on hand loss. -/
theorem claim_C5_amended (s : HandLoopState) :
    processResults capturedMountTracking s Option.none = (s, []) := by
  simp [processResults, capturedMountTracking]

/-- Witness for the amended C5 at `c5State`. -/
theorem claim_C5_witness :
    processResults capturedMountTracking c5State Option.none = (c5State, []) :=
  claim_C5_amended c5State

/-- C9: a primary-button double-click within 300 ms (the platform reports an
equivalent double-tap through the same synthesized mouse events) toggles the
application state directly between tree and galaxy when the state is not
focus, and forces galaxy when it is focus, emitting a single state-change
and no classified gesture event. -/
theorem claim_C9_double_click (currentState : TreeState) (m : MouseFallbackState)
    (buttons button : ℕ) (now : ℤ) (clientX clientY : ℚ)
    (hb : buttons ≠ 3) (hbt : button = 0) (hdt : now - m.lastClick < 300) :
    handleMouseDown true currentState buttons button now clientX clientY m
      = ({ m with lastClick := 0 },
         [MouseEvent'.stateChange
            (if currentState = TreeState.tree then TreeState.galaxy
             else if currentState = TreeState.galaxy then TreeState.tree
             else TreeState.galaxy)]) := by
  have hcond : button = 0 ∧ now - m.lastClick < 300 := ⟨hbt, hdt⟩
  cases currentState <;>
    simp [handleMouseDown, hb, hcond]

/-- Witness for C9: double-click in tree state. -/
theorem claim_C9_witness :
    handleMouseDown true TreeState.tree 1 0 100 0 0
        ⟨false, GestureType.none, 0, (0, 0), false, Option.none⟩
      = ({ (⟨false, GestureType.none, 0, (0, 0), false, Option.none⟩ :
            MouseFallbackState) with lastClick := 0 },
         [MouseEvent'.stateChange
            (if TreeState.tree = TreeState.tree then TreeState.galaxy
             else if TreeState.tree = TreeState.galaxy then TreeState.tree
             else TreeState.galaxy)]) :=
  claim_C9_double_click TreeState.tree
    ⟨false, GestureType.none, 0, (0, 0), false, Option.none⟩
    1 0 100 0 0 (by decide) rfl (by decide)

/-- C10: when the double-click shortcut fires in focus state, only the
`treeState` field changes (to galaxy): the focused-photo selection is left
untouched, unlike the pinch-driven focus-to-galaxy transition of
`handleGestureChange`, which clears it. -/
theorem claim_C10_focus_frame (photos : List String) (r : ℚ)
    (m : MouseFallbackState) (i : ℕ) (s : AppState)
    (buttons button : ℕ) (now : ℤ) (clientX clientY : ℚ)
    (hs : s.treeState = TreeState.focus) (hfoc : s.focusedPhotoIndex = Option.some i)
    (hb : buttons ≠ 3) (hbt : button = 0) (hdt : now - m.lastClick < 300) :
    applyMouseEvents photos r s
        (handleMouseDown true s.treeState buttons button now clientX clientY m).2
      = { treeState := TreeState.galaxy, focusedPhotoIndex := Option.some i }
    ∧ (handleGestureChange photos r GestureType.pinch s).focusedPhotoIndex
        = Option.none := by
  have hcond : button = 0 ∧ now - m.lastClick < 300 := ⟨hbt, hdt⟩
  constructor
  · rw [hs]
    simp [handleMouseDown, hb, hcond, applyMouseEvents, applyMouseEvent]
    cases s
    simp_all
  · have h1 : s.treeState ≠ TreeState.galaxy := by simp [hs]
    simp [handleGestureChange, h1, hs]

/-- Witness for C10: double-click with state focus, photo 3 selected. -/
theorem claim_C10_witness :
    applyMouseEvents [] 0 ⟨TreeState.focus, Option.some 3⟩
        (handleMouseDown true
          (⟨TreeState.focus, Option.some 3⟩ : AppState).treeState 1 0 100 0 0
          ⟨false, GestureType.none, 0, (0, 0), false, Option.none⟩).2
      = { treeState := TreeState.galaxy, focusedPhotoIndex := Option.some 3 }
    ∧ (handleGestureChange [] 0 GestureType.pinch
        ⟨TreeState.focus, Option.some 3⟩).focusedPhotoIndex = Option.none :=
  claim_C10_focus_frame [] 0
    ⟨false, GestureType.none, 0, (0, 0), false, Option.none⟩
    3 ⟨TreeState.focus, Option.some 3⟩ 1 0 100 0 0
    rfl rfl (by decide) rfl (by decide)

/- ===== Part 2: camera controller (Scene.tsx) over ℝ ===== -/

structure Vec3 where
  x : ℝ
  y : ℝ
  z : ℝ

/-- Ribbon spiral y coordinate at parameter t (Scene.tsx line 59;
height = 7, vertical offset 0.3). -/
noncomputable def ribbonY (t : ℝ) : ℝ := t * 7 - 7 / 2 + 0.3

/-- Ribbon spiral radius at parameter t (line 60; maxRadius = 3.0). -/
noncomputable def layerRadius (t : ℝ) : ℝ := 3.0 * (1 - t * 0.88) + 0.15

/-- Ribbon spiral angle at parameter t (line 61; six half-turn pairs). -/
noncomputable def ribbonAngle (t : ℝ) : ℝ := t * Real.pi * 6

/-- The point of the spiral at parameter t (lines 59-64). -/
noncomputable def ribbonPoint (t : ℝ) : Vec3 :=
  ⟨Real.cos (ribbonAngle t) * layerRadius t, ribbonY t,
   Real.sin (ribbonAngle t) * layerRadius t⟩

/-- Squared camera-to-spiral distance at sample t (lines 66-70 before the
square root). -/
noncomputable def ribbonDistSq (p : Vec3) (t : ℝ) : ℝ :=
  (p.x - (ribbonPoint t).x) ^ 2 + (p.y - (ribbonPoint t).y) ^ 2
    + (p.z - (ribbonPoint t).z) ^ 2

/-- The `Math.sqrt` distance the loop actually compares (lines 66-70). -/
noncomputable def ribbonDist (p : Vec3) (t : ℝ) : ℝ := Real.sqrt (ribbonDistSq p t)

/-- The sampling grid t = 0, 0.02, ..., 1 of the `for` loop (line 58), in
exact real arithmetic: k * 0.02 for k = 0..50 (50 * 0.02 = 1 satisfies the
`t <= 1` bound, so the endpoint is sampled). -/
noncomputable def ribbonSamples : List ℝ :=
  (List.range 51).map (fun (k : ℕ) => (k : ℝ) * 0.02)

/-- Body of the nearest-sample loop (lines 72-75). -/
noncomputable def nearestStep (p : Vec3) (acc : ℝ × ℝ) (t : ℝ) : ℝ × ℝ :=
  if ribbonDist p t < acc.2 then (t, ribbonDist p t) else acc

/-- `findNearestRibbonT` (lines 52-79).  The source starts with nearestT = 0
and minDistance = Infinity, so its t = 0 iteration always installs the pair
(0, dist 0); folding the whole grid from that pair computes the same result
(the t = 0 step of the fold compares dist 0 < dist 0 and keeps the pair). -/
noncomputable def findNearestRibbonT (p : Vec3) : ℝ :=
  (ribbonSamples.foldl (nearestStep p) (0, ribbonDist p 0)).1

/-- The camera controller's persistent refs (Scene.tsx lines 36-50):
`target`/`position` are `targetRef`/`positionRef` (the camera's look-at
point and position as copied at the end of every frame), `ribbonTime`,
`prevState`, `transitionDelay`, `isAtStar`, `hasInitialized`, `velocity`,
`targetVelocity`, `smoothZoom` match the refs of the same names. -/
structure CamState where
  target : Vec3
  position : Vec3
  ribbonTime : ℝ
  prevState : TreeState
  transitionDelay : ℝ
  isAtStar : Bool
  hasInitialized : Bool
  velocity : ℝ
  targetVelocity : ℝ
  smoothZoom : ℝ

/-- Per-frame external inputs of the controller (its props). -/
structure CamInput where
  state : TreeState
  orbitX : ℝ
  orbitY : ℝ
  handPosition : Option (ℝ × ℝ)
  zoom : ℝ

/-- Smoothed-zoom update (line 84). -/
noncomputable def smoothZoomStep (zoom δ : ℝ) (s : CamState) : CamState :=
  { s with smoothZoom := s.smoothZoom + (zoom - s.smoothZoom) * 5 * δ }

/-- Tree-entry / tree-exit edge handling (lines 87-102); the boolean list
records the `onStarFocused` calls made. -/
noncomputable def edgeStep (st : TreeState) (s : CamState) : CamState × List Bool :=
  if st = TreeState.tree ∧ s.prevState ≠ TreeState.tree then
    ({ s with transitionDelay := 2.0,
              ribbonTime := findNearestRibbonT s.position,
              isAtStar := false,
              velocity := 0.05,
              hasInitialized := true,
              prevState := st }, [false])
  else if st ≠ TreeState.tree ∧ s.prevState = TreeState.tree then
    ({ s with isAtStar := false, prevState := st }, [false])
  else ({ s with prevState := st }, [])

/-- Transition-delay countdown (lines 104-106). -/
noncomputable def delayStep (δ : ℝ) (s : CamState) : CamState :=
  if s.transitionDelay > 0 then { s with transitionDelay := s.transitionDelay - δ }
  else s

/-- Climb advance (lines 120-137): velocity eases toward the sin-eased
profile between 0.05 and 0.12 at rate 2.5, t advances by velocity * δ and
clamps at 1, firing the star event. -/
noncomputable def climbStep (δ : ℝ) (s : CamState) : CamState × List Bool :=
  let easeFactor := Real.sin (s.ribbonTime * Real.pi)
  let targetVelocity := 0.05 + easeFactor * (0.12 - 0.05)
  let velocity' := s.velocity + (targetVelocity - s.velocity) * 2.5 * δ
  let ribbonTime' := s.ribbonTime + velocity' * δ
  if ribbonTime' ≥ 1 then
    ({ s with targetVelocity := targetVelocity, velocity := velocity',
              ribbonTime := 1, isAtStar := true }, [true])
  else
    ({ s with targetVelocity := targetVelocity, velocity := velocity',
              ribbonTime := ribbonTime' }, [])

/-- Exponential easing of position and look-at toward the frame's targets
(lines 177-186). -/
noncomputable def easeStep (δ targetX targetY targetZ lookAtY : ℝ)
    (s : CamState) : CamState :=
  let smoothFactor := 1 - Real.exp (-2.5 * δ)
  { s with
      position := ⟨s.position.x + (targetX - s.position.x) * smoothFactor,
                   s.position.y + (targetY - s.position.y) * smoothFactor,
                   s.position.z + (targetZ - s.position.z) * smoothFactor⟩,
      target := ⟨s.target.x, s.target.y + (lookAtY - s.target.y) * smoothFactor,
                 s.target.z⟩ }

/-- The whole `useFrame` body of CameraController (Scene.tsx lines 81-187):
given the props, the frame delta and the persisted refs, returns the updated
refs (the rendered camera position / look-at are the `position` / `target`
fields) together with the ordered `onStarFocused` payloads of the frame. -/
noncomputable def frameStep (inp : CamInput) (δ : ℝ) (s : CamState) :
    CamState × List Bool :=
  let s1 := smoothZoomStep inp.zoom δ s
  let es := edgeStep inp.state s1
  let s3 := delayStep δ es.1
  let baseDistance :=
    max 4 (min 35 ((if inp.state = TreeState.tree then (12 : ℝ) else 18)
      + s3.smoothZoom))
  if inp.state = TreeState.tree ∧ s3.transitionDelay ≤ 0 then
    if s3.isAtStar = false then
      let cs := climbStep δ s3
      let tClamped := min cs.1.ribbonTime 1
      let rY := tClamped * 7 - 7 / 2 + 0.3
      let lR := 3.0 * (1 - tClamped * 0.88) + 0.15
      let angle := tClamped * Real.pi * 6
      let cameraDistance := (5 + lR * 1.5) + cs.1.smoothZoom * 0.5
      let cameraAngle := angle + Real.pi * 0.3
      (easeStep δ (Real.cos cameraAngle * cameraDistance) (rY + 1.5)
         (Real.sin cameraAngle * cameraDistance) rY cs.1, es.2 ++ cs.2)
    else
      (easeStep δ 0 (4.4 + 1) (6 + s3.smoothZoom) 4.4 s3, es.2)
  else if inp.handPosition.isSome ∧ inp.state = TreeState.galaxy then
    let hp := inp.handPosition.getD (0, 0)
    (easeStep δ ((hp.1 - 0.5) * 20) ((0.5 - hp.2) * 10 + 2)
       (Real.cos inp.orbitY * baseDistance) 0 s3, es.2)
  else
    (easeStep δ (Real.sin inp.orbitY * baseDistance) (Real.sin inp.orbitX * 5 + 2)
       (Real.cos inp.orbitY * baseDistance) 0 s3, es.2)

/-- A sequence of frames with the same props: threads the state and
concatenates the per-frame event lists. -/
noncomputable def runFrames (inp : CamInput) (s : CamState) :
    List ℝ → CamState × List Bool
  | [] => (s, [])
  | δ :: rest =>
    let fs := frameStep inp δ s
    let rs := runFrames inp fs.1 rest
    (rs.1, fs.2 ++ rs.2)

/-- The fold underlying `findNearestRibbonT` keeps a pair (sample, its
distance) whose distance is minimal among the start pair and the visited
samples. -/
theorem foldl_nearestStep_spec (p : Vec3) (l : List ℝ) (a : ℝ × ℝ)
    (ha : a.2 = ribbonDist p a.1) :
    (l.foldl (nearestStep p) a).2 = ribbonDist p (l.foldl (nearestStep p) a).1
    ∧ ((l.foldl (nearestStep p) a).1 = a.1 ∨ (l.foldl (nearestStep p) a).1 ∈ l)
    ∧ (l.foldl (nearestStep p) a).2 ≤ a.2
    ∧ ∀ t ∈ l, (l.foldl (nearestStep p) a).2 ≤ ribbonDist p t := by
  induction l generalizing a with
  | nil => exact ⟨ha, Or.inl rfl, le_refl _, by simp⟩
  | cons x xs ih =>
    simp only [List.foldl_cons]
    by_cases h : ribbonDist p x < a.2
    · have hstep : nearestStep p a x = (x, ribbonDist p x) := by
        simp [nearestStep, h]
      rw [hstep]
      obtain ⟨h1, h2, h3, h4⟩ := ih (x, ribbonDist p x) rfl
      refine ⟨h1, ?_, ?_, ?_⟩
      · rcases h2 with h2 | h2
        · exact Or.inr (by simp [h2])
        · exact Or.inr (List.mem_cons_of_mem _ h2)
      · exact h3.trans h.le
      · intro t ht
        rcases List.mem_cons.mp ht with rfl | ht
        · exact h3
        · exact h4 t ht
    · have hstep : nearestStep p a x = a := by
        simp [nearestStep, h]
      rw [hstep]
      obtain ⟨h1, h2, h3, h4⟩ := ih a ha
      refine ⟨h1, ?_, h3, ?_⟩
      · rcases h2 with h2 | h2
        · exact Or.inl h2
        · exact Or.inr (List.mem_cons_of_mem _ h2)
      · intro t ht
        rcases List.mem_cons.mp ht with rfl | ht
        · exact h3.trans (not_lt.mp h)
        · exact h4 t ht

theorem zero_mem_ribbonSamples : (0 : ℝ) ∈ ribbonSamples := by
  unfold ribbonSamples
  exact List.mem_map.mpr ⟨0, List.mem_range.mpr (by norm_num), by norm_num⟩

/-- The search result is one of the samples and achieves the minimal
distance among all samples. -/
theorem findNearestRibbonT_spec (p : Vec3) :
    findNearestRibbonT p ∈ ribbonSamples
    ∧ ∀ t ∈ ribbonSamples,
        ribbonDist p (findNearestRibbonT p) ≤ ribbonDist p t := by
  obtain ⟨h1, h2, _h3, h4⟩ :=
    foldl_nearestStep_spec p ribbonSamples (0, ribbonDist p 0) rfl
  constructor
  · rcases h2 with h2 | h2
    · rw [findNearestRibbonT, h2]; exact zero_mem_ribbonSamples
    · exact h2
  · intro t ht
    have := h4 t ht
    rwa [h1] at this

theorem ribbonSamples_grid : ∀ t ∈ ribbonSamples,
    ∃ j : ℤ, 0 ≤ j ∧ j ≤ 50 ∧ t = (j : ℝ) * 0.02 := by
  intro t ht
  simp only [ribbonSamples, List.mem_map, List.mem_range] at ht
  obtain ⟨k, hk, hkt⟩ := ht
  refine ⟨k, Int.natCast_nonneg k, by exact_mod_cast Nat.le_of_lt_succ hk, ?_⟩
  rw [← hkt]
  push_cast
  ring

theorem ribbonSamples_bounds : ∀ t ∈ ribbonSamples, 0 ≤ t ∧ t ≤ 1 := by
  intro t ht
  obtain ⟨j, hj0, hj50, rfl⟩ := ribbonSamples_grid t ht
  have h0 : (0 : ℝ) ≤ (j : ℝ) := by exact_mod_cast hj0
  have h50 : (j : ℝ) ≤ 50 := by exact_mod_cast hj50
  constructor <;> nlinarith

/-- Every t₀ ∈ [0,1] has a grid sample within half a step (0.01), and every
sample farther than a full step (0.02) from t₀ is at least three times as
far from t₀ as that nearest sample is. -/
theorem exists_near_sample (t0 : ℝ) (h0 : 0 ≤ t0) (h1 : t0 ≤ 1) :
    ∃ n ∈ ribbonSamples, |t0 - n| ≤ 0.01
      ∧ ∀ s ∈ ribbonSamples, 0.02 < |t0 - s| → 3 * |t0 - n| ≤ |t0 - s| := by
  set k : ℤ := round (50 * t0) with hk
  have hkr : |50 * t0 - (k : ℝ)| ≤ 1 / 2 := by
    rw [hk]
    exact abs_sub_round (50 * t0)
  have hkr' := abs_le.mp hkr
  have hk0 : 0 ≤ k := by
    by_contra hneg
    push_neg at hneg
    have hle : k ≤ -1 := by omega
    have : (k : ℝ) ≤ -1 := by exact_mod_cast hle
    linarith
  have hk50 : k ≤ 50 := by
    by_contra hgt
    push_neg at hgt
    have hge : 51 ≤ k := by omega
    have : (51 : ℝ) ≤ (k : ℝ) := by exact_mod_cast hge
    linarith
  have hmem : (k : ℝ) * 0.02 ∈ ribbonSamples := by
    unfold ribbonSamples
    refine List.mem_map.mpr ⟨k.toNat, List.mem_range.mpr (by omega), ?_⟩
    have hcast : ((k.toNat : ℕ) : ℝ) = (k : ℝ) := by
      exact_mod_cast Int.toNat_of_nonneg hk0
    simp [hcast]
  have hu01 : |t0 - (k : ℝ) * 0.02| ≤ 0.01 := by
    have heq : t0 - (k : ℝ) * 0.02 = (50 * t0 - (k : ℝ)) * 0.02 := by ring
    rw [heq, abs_mul, abs_of_pos (by norm_num : (0 : ℝ) < 0.02)]
    nlinarith [abs_nonneg (50 * t0 - (k : ℝ))]
  refine ⟨(k : ℝ) * 0.02, hmem, hu01, ?_⟩
  intro s hs hfar
  obtain ⟨j, hj0, hj50, rfl⟩ := ribbonSamples_grid s hs
  set u := t0 - (k : ℝ) * 0.02 with hu
  obtain ⟨hul, hur⟩ := abs_le.mp hu01
  set m : ℤ := k - j with hm
  have hw : t0 - (j : ℝ) * 0.02 = u + (m : ℝ) * 0.02 := by
    rw [hu, hm]
    push_cast
    ring
  rw [hw] at hfar ⊢
  clear_value u m
  have hcases : m ≤ -2 ∨ m = -1 ∨ m = 0 ∨ m = 1 ∨ 2 ≤ m := by omega
  rcases hcases with hc | hc | hc | hc | hc
  · have hmr : (m : ℝ) ≤ -2 := by exact_mod_cast hc
    have hm2 : (m : ℝ) * 0.02 ≤ -0.04 := by linarith
    have hneg : u + (m : ℝ) * 0.02 ≤ -0.03 := by linarith
    have habs : |u + (m : ℝ) * 0.02| = -(u + (m : ℝ) * 0.02) :=
      abs_of_nonpos (by linarith)
    rw [habs]
    linarith [hu01]
  · have hmr : (m : ℝ) = -1 := by exact_mod_cast hc
    rw [hmr] at hfar ⊢
    have hneg : u + (-1) * 0.02 ≤ -0.01 := by linarith
    have habs : |u + (-1) * 0.02| = -(u + (-1) * 0.02) :=
      abs_of_nonpos (by linarith)
    rw [habs] at hfar ⊢
    have hulneg : u < 0 := by linarith
    rw [abs_of_neg hulneg]
    linarith
  · exfalso
    have hmr : (m : ℝ) = 0 := by exact_mod_cast hc
    rw [hmr] at hfar
    simp only [zero_mul, add_zero] at hfar
    linarith [hu01, hfar]
  · have hmr : (m : ℝ) = 1 := by exact_mod_cast hc
    rw [hmr] at hfar ⊢
    have hpos : 0.01 ≤ u + 1 * 0.02 := by linarith
    have habs : |u + 1 * 0.02| = u + 1 * 0.02 :=
      abs_of_nonneg (by linarith)
    rw [habs] at hfar ⊢
    have hupos : 0 < u := by linarith
    rw [abs_of_pos hupos]
    linarith
  · have hmr : (2 : ℝ) ≤ (m : ℝ) := by exact_mod_cast hc
    have hm2 : 0.04 ≤ (m : ℝ) * 0.02 := by linarith
    have hpos : 0.03 ≤ u + (m : ℝ) * 0.02 := by linarith
    have habs : |u + (m : ℝ) * 0.02| = u + (m : ℝ) * 0.02 :=
      abs_of_nonneg (by linarith)
    rw [habs]
    linarith [hu01]

/-- For a camera sitting exactly on the spiral at t₀, the squared distance
to the sample at s splits into the vertical/radial part and a chord part:
49 + 2.64² times (t₀-s)² plus 2·r(t₀)·r(s)·(1 - cos(6π(t₀-s))). -/
theorem ribbonDistSq_chord (t0 s : ℝ) :
    ribbonDistSq (ribbonPoint t0) s
      = (49 + 2.64 ^ 2) * (t0 - s) ^ 2
        + 2 * layerRadius t0 * layerRadius s
          * (1 - Real.cos (6 * Real.pi * (t0 - s))) := by
  have hcos : Real.cos (6 * Real.pi * (t0 - s))
      = Real.cos (ribbonAngle t0) * Real.cos (ribbonAngle s)
        + Real.sin (ribbonAngle t0) * Real.sin (ribbonAngle s) := by
    rw [show 6 * Real.pi * (t0 - s) = ribbonAngle t0 - ribbonAngle s by
      unfold ribbonAngle; ring]
    exact Real.cos_sub _ _
  have h0 : Real.sin (ribbonAngle t0) ^ 2 + Real.cos (ribbonAngle t0) ^ 2 = 1 :=
    Real.sin_sq_add_cos_sq _
  have hs : Real.sin (ribbonAngle s) ^ 2 + Real.cos (ribbonAngle s) ^ 2 = 1 :=
    Real.sin_sq_add_cos_sq _
  rw [hcos]
  simp only [ribbonDistSq, ribbonPoint, ribbonY, layerRadius]
  linear_combination (3.0 * (1 - t0 * 0.88) + 0.15) ^ 2 * h0
    + (3.0 * (1 - s * 0.88) + 0.15) ^ 2 * hs

/-- 1 - cos x is at most x²/2. -/
theorem one_sub_cos_le_half_sq (x : ℝ) : 1 - Real.cos x ≤ x ^ 2 / 2 := by
  have h := @Real.one_sub_sq_div_two_le_cos x
  linarith

/-- 1 - cos(2x) equals 2 sin² x. -/
theorem one_sub_cos_two_mul (x : ℝ) : 1 - Real.cos (2 * x) = 2 * Real.sin x ^ 2 := by
  have h := @Real.sin_sq_eq_half_sub x
  linarith

/-- Linear lower bound for sin on (0, 0.5655], from the cubic bound. -/
theorem sin_ge_linear (x : ℝ) (h0 : 0 < x) (h1 : x ≤ 0.5655) :
    0.91 * x ≤ Real.sin x := by
  have h2 : x ≤ 1 := by linarith
  have hcube := Real.sin_gt_sub_cube h0 h2
  nlinarith [sq_nonneg x, mul_pos h0 h0]

theorem layerRadius_bounds (t : ℝ) (h0 : 0 ≤ t) (h1 : t ≤ 1) :
    0.51 ≤ layerRadius t ∧ layerRadius t ≤ 3.15 := by
  unfold layerRadius
  constructor <;> nlinarith


theorem pi_sq_lt : Real.pi ^ 2 < 9.8697 := by
  nlinarith [Real.pi_lt_d4, Real.pi_gt_d4]

theorem pi_sq_gt : 9.8690 < Real.pi ^ 2 := by
  nlinarith [Real.pi_lt_d4, Real.pi_gt_d4]

/-- Upper quadratic bound on the chord factor. -/
theorem near_cos_upper (u : ℝ) :
    1 - Real.cos (6 * Real.pi * u) ≤ 18 * Real.pi ^ 2 * u ^ 2 := by
  have h := one_sub_cos_le_half_sq (6 * Real.pi * u)
  nlinarith [h]

/-- Squared sine is even. -/
theorem sin_sq_abs (x : ℝ) : Real.sin x ^ 2 = Real.sin |x| ^ 2 := by
  rcases abs_cases x with ⟨h, _⟩ | ⟨h, _⟩
  · rw [h]
  · rw [h, Real.sin_neg]
    ring

/-- Half-angle form of the chord factor. -/
theorem one_sub_cos_six (x : ℝ) :
    1 - Real.cos (6 * Real.pi * x) = 2 * Real.sin (3 * Real.pi * x) ^ 2 := by
  have h := one_sub_cos_two_mul (3 * Real.pi * x)
  rw [show 2 * (3 * Real.pi * x) = 6 * Real.pi * x by ring] at h
  exact h

/-- Region-A lower bound: for 0 < |w| ≤ 0.06 the chord factor beats a fixed
quadratic. -/
theorem regionA_cos_lower (w : ℝ) (h2 : |w| ≤ 0.06) :
    147.1 * w ^ 2 ≤ 1 - Real.cos (6 * Real.pi * w) := by
  rcases eq_or_ne w 0 with rfl | hw0
  · simp
  have h1 : 0 < |w| := abs_pos.mpr hw0
  have hy0 : 0 < 3 * Real.pi * |w| := by positivity
  have hy1 : 3 * Real.pi * |w| ≤ 0.5655 := by
    nlinarith [Real.pi_lt_d4, h1]
  have hsiny := sin_ge_linear (3 * Real.pi * |w|) hy0 hy1
  have h91 : (0:ℝ) ≤ 0.91 * (3 * Real.pi * |w|) := by positivity
  have hsq := mul_self_le_mul_self h91 hsiny
  have hsin2 : 0.8281 * (9 * Real.pi ^ 2 * w ^ 2)
      ≤ Real.sin (3 * Real.pi * |w|) ^ 2 := by
    nlinarith [hsq, sq_abs w]
  rw [one_sub_cos_six w, sin_sq_abs (3 * Real.pi * w),
    show |3 * Real.pi * w| = 3 * Real.pi * |w| by
      rw [abs_mul, abs_of_pos (by positivity : (0:ℝ) < 3 * Real.pi)]]
  nlinarith [hsin2, pi_sq_gt, sq_nonneg w]

/-- Region-B lower bound: for 0.06 < |w| ≤ 1/6 the chord factor exceeds a
fixed constant. -/
theorem regionB_cos_lower (w : ℝ) (h1 : 0.06 < |w|) (h2 : |w| ≤ 1 / 6) :
    0.5294 ≤ 1 - Real.cos (6 * Real.pi * w) := by
  have hy0 : 0.18 * Real.pi ≤ 3 * Real.pi * |w| := by
    nlinarith [Real.pi_gt_d4]
  have hy2 : 3 * Real.pi * |w| ≤ Real.pi / 2 := by
    nlinarith [Real.pi_gt_d4]
  have hx1 : -(Real.pi / 2) ≤ 0.18 * Real.pi := by
    nlinarith [Real.pi_gt_d4]
  have hmono := Real.sin_le_sin_of_le_of_le_pi_div_two hx1 hy2 hy0
  have hlow := sin_ge_linear (0.18 * Real.pi)
    (by positivity) (by nlinarith [Real.pi_lt_d4])
  have hsinb : 0.5145 ≤ Real.sin (3 * Real.pi * |w|) := by
    nlinarith [hmono, hlow, Real.pi_gt_d4]
  have hsin2 : 0.2647 ≤ Real.sin (3 * Real.pi * |w|) ^ 2 := by nlinarith [hsinb]
  rw [one_sub_cos_six w, sin_sq_abs (3 * Real.pi * w),
    show |3 * Real.pi * w| = 3 * Real.pi * |w| by
      rw [abs_mul, abs_of_pos (by positivity : (0:ℝ) < 3 * Real.pi)]]
  linarith [hsin2]

/-- The ratio-9 comparison of the far and near quadratic coefficients is
strict for every radius. -/
theorem quad_coeff_pos (r0 : ℝ) (h : 0 ≤ r0) :
    55.9696 + 355.31 * (r0 * (r0 + 0.0264))
      < 9 * (55.9696 + 294.2 * (r0 * (r0 - 0.1584))) := by
  nlinarith [sq_nonneg (r0 - 0.0936), h]

set_option maxHeartbeats 3200000 in
/-- Key geometric separation: from a point exactly on the spiral at t₀, any
sample s farther than one step (and at least three times as far as the
nearest sample n) is strictly farther in space than n. -/
theorem far_sample_farther (t0 n s : ℝ)
    (ht0 : 0 ≤ t0) (ht1 : t0 ≤ 1) (hn0 : 0 ≤ n) (hn1 : n ≤ 1)
    (hs0 : 0 ≤ s) (hs1 : s ≤ 1)
    (hnear : |t0 - n| ≤ 0.01) (hfar : 0.02 < |t0 - s|)
    (h3 : 3 * |t0 - n| ≤ |t0 - s|) :
    ribbonDistSq (ribbonPoint t0) n < ribbonDistSq (ribbonPoint t0) s := by
  obtain ⟨hr0a, hr0b⟩ := layerRadius_bounds t0 ht0 ht1
  obtain ⟨hrna, hrnb⟩ := layerRadius_bounds n hn0 hn1
  obtain ⟨hrsa, hrsb⟩ := layerRadius_bounds s hs0 hs1
  have hrn : layerRadius n = layerRadius t0 + 2.64 * (t0 - n) := by
    unfold layerRadius
    ring
  have hrs : layerRadius s = layerRadius t0 + 2.64 * (t0 - s) := by
    unfold layerRadius
    ring
  rw [ribbonDistSq_chord t0 n, ribbonDistSq_chord t0 s]
  set u := t0 - n with hu
  set w := t0 - s with hwdef
  set r0 := layerRadius t0 with hr0def
  set rn := layerRadius n with hrndef
  set rs := layerRadius s with hrsdef
  clear_value u w r0 rn rs
  clear hu hwdef hr0def hrndef hrsdef ht0 ht1 hn0 hn1 hs0 hs1
  obtain ⟨hul, hur⟩ := abs_le.mp hnear
  have hu2 : u ^ 2 ≤ 0.0001 := by
    have hp := mul_nonneg (by linarith : (0:ℝ) ≤ 0.01 - u)
      (by linarith : (0:ℝ) ≤ u + 0.01)
    linarith [hp]
  have hw2 : 0.0004 < w ^ 2 := by
    have hsq := mul_self_lt_mul_self (by norm_num : (0:ℝ) ≤ 0.02) hfar
    linarith [sq_abs w, hsq]
  have hw9 : 9 * u ^ 2 ≤ w ^ 2 := by
    have habs := mul_self_le_mul_self (by positivity : (0:ℝ) ≤ 3 * |u|) h3
    linarith [sq_abs w, sq_abs u, habs]
  have hrnle : rn ≤ r0 + 0.0264 := by
    rw [hrn]
    linarith
  have h2rn0 : (0:ℝ) ≤ 2 * r0 * rn :=
    mul_nonneg (by linarith : (0:ℝ) ≤ 2 * r0) (by linarith : (0:ℝ) ≤ rn)
  have e1 : 2 * r0 * rn * (1 - Real.cos (6 * Real.pi * u))
      ≤ 2 * r0 * rn * (18 * Real.pi ^ 2 * u ^ 2) :=
    mul_le_mul_of_nonneg_left (near_cos_upper u) h2rn0
  have c1 : r0 * rn ≤ r0 * (r0 + 0.0264) :=
    mul_le_mul_of_nonneg_left hrnle (by linarith : (0:ℝ) ≤ r0)
  have p1 : (0:ℝ) ≤ (355.31 - 36 * Real.pi ^ 2) * (r0 * rn) :=
    mul_nonneg (by linarith [pi_sq_lt])
      (mul_nonneg (by linarith : (0:ℝ) ≤ r0) (by linarith : (0:ℝ) ≤ rn))
  have c3 : 36 * Real.pi ^ 2 * (r0 * rn) ≤ 355.31 * (r0 * (r0 + 0.0264)) := by
    linarith [p1, c1]
  have e2 : 36 * Real.pi ^ 2 * (r0 * rn) * u ^ 2
      ≤ 355.31 * (r0 * (r0 + 0.0264)) * u ^ 2 :=
    mul_le_mul_of_nonneg_right c3 (sq_nonneg u)
  have hDn : (49 + 2.64 ^ 2) * u ^ 2
        + 2 * r0 * rn * (1 - Real.cos (6 * Real.pi * u))
      ≤ (55.9696 + 355.31 * (r0 * (r0 + 0.0264))) * u ^ 2 := by
    linarith [e1, e2]
  have hr0sq : r0 ^ 2 ≤ 9.9225 := by
    have hp := mul_nonneg (by linarith : (0:ℝ) ≤ 3.15 - r0)
      (by linarith : (0:ℝ) ≤ r0 + 3.15)
    linarith [hp]
  have hA3611 : 55.9696 + 355.31 * (r0 * (r0 + 0.0264)) ≤ 3611.1 := by
    linarith [hr0sq, hr0b]
  have d1 : (55.9696 + 355.31 * (r0 * (r0 + 0.0264))) * u ^ 2 ≤ 3611.1 * 0.0001 :=
    mul_le_mul hA3611 hu2 (sq_nonneg u) (by norm_num)
  have hDnU : (49 + 2.64 ^ 2) * u ^ 2
      + 2 * r0 * rn * (1 - Real.cos (6 * Real.pi * u)) ≤ 0.3612 := by
    linarith [hDn, d1]
  have hcos1w := Real.cos_le_one (6 * Real.pi * w)
  have hrs0 : (0:ℝ) ≤ r0 * rs :=
    mul_nonneg (by linarith : (0:ℝ) ≤ r0) (by linarith : (0:ℝ) ≤ rs)
  have hterm : (0:ℝ) ≤ 2 * r0 * rs * (1 - Real.cos (6 * Real.pi * w)) := by
    have hmm := mul_nonneg (by linarith : (0:ℝ) ≤ 2 * (r0 * rs))
      (by linarith : (0:ℝ) ≤ 1 - Real.cos (6 * Real.pi * w))
    linarith [hmm]
  rcases le_or_lt |w| 0.06 with hw06 | hw06
  · obtain ⟨hwl, hwr⟩ := abs_le.mp hw06
    have hcosw := regionA_cos_lower w hw06
    have hrsge : r0 - 0.1584 ≤ rs := by
      rw [hrs]
      linarith
    have hprod : r0 * (r0 - 0.1584) ≤ r0 * rs :=
      mul_le_mul_of_nonneg_left hrsge (by linarith : (0:ℝ) ≤ r0)
    have f1 : 2 * r0 * rs * (147.1 * w ^ 2)
        ≤ 2 * r0 * rs * (1 - Real.cos (6 * Real.pi * w)) :=
      mul_le_mul_of_nonneg_left hcosw (by linarith [hrs0])
    have f2 : 294.2 * (r0 * (r0 - 0.1584)) * w ^ 2 ≤ 294.2 * (r0 * rs) * w ^ 2 :=
      mul_le_mul_of_nonneg_right (by linarith [hprod]) (sq_nonneg w)
    have hDs : (55.9696 + 294.2 * (r0 * (r0 - 0.1584))) * w ^ 2
        ≤ (49 + 2.64 ^ 2) * w ^ 2
          + 2 * r0 * rs * (1 - Real.cos (6 * Real.pi * w)) := by
      linarith [f1, f2]
    have hCf0 : (0:ℝ) ≤ 55.9696 + 294.2 * (r0 * (r0 - 0.1584)) := by
      linarith [sq_nonneg (r0 - 0.0792)]
    have hQ := quad_coeff_pos r0 (by linarith)
    rcases lt_or_eq_of_le (sq_nonneg u) with hu2pos | hu2z
    · have step1 := mul_lt_mul_of_pos_right hQ hu2pos
      have step2 : 9 * (55.9696 + 294.2 * (r0 * (r0 - 0.1584))) * u ^ 2
          ≤ (55.9696 + 294.2 * (r0 * (r0 - 0.1584))) * w ^ 2 := by
        have hstep := mul_le_mul_of_nonneg_left hw9 hCf0
        linarith [hstep]
      linarith [hDn, hDs, step1, step2]
    · have hu0 : u = 0 := by
        have h := hu2z.symm
        exact pow_eq_zero_iff (by norm_num) |>.mp h
      rw [hu0]
      simp only [mul_zero, Real.cos_zero]
      have hw556 : 0.0004 * 55.9696 < w ^ 2 * 55.9696 :=
        mul_lt_mul_of_pos_right hw2 (by norm_num)
      linarith [hterm, hw556]
  · rcases le_or_lt |w| (1 / 6) with hw16 | hw16
    · have hcosw := regionB_cos_lower w hw06 hw16
      have hprodq := mul_le_mul hr0a hrsa (by norm_num) (by linarith)
      have hwsq : 0.0036 < w ^ 2 := by
        have hsq := mul_self_lt_mul_self (by norm_num : (0:ℝ) ≤ 0.06) hw06
        linarith [sq_abs w, hsq]
      have f1 : (0.51 : ℝ) * 0.51 * 0.5294
          ≤ r0 * rs * (1 - Real.cos (6 * Real.pi * w)) := by
        have h1 := mul_le_mul hprodq hcosw (by norm_num)
          (by positivity)
        linarith [h1]
      have hDs : 0.4768 ≤ (49 + 2.64 ^ 2) * w ^ 2
          + 2 * r0 * rs * (1 - Real.cos (6 * Real.pi * w)) := by
        linarith [hwsq, f1]
      linarith [hDnU, hDs]
    · have hwsq : 1 / 36 < w ^ 2 := by
        have hsq := mul_self_lt_mul_self (by positivity : (0:ℝ) ≤ 1 / 6) hw16
        linarith [sq_abs w, hsq]
      have hDs : 1.55 ≤ (49 + 2.64 ^ 2) * w ^ 2
          + 2 * r0 * rs * (1 - Real.cos (6 * Real.pi * w)) := by
        linarith [hwsq, hterm]
      linarith [hDnU, hDs]

/-- For a camera exactly on the spiral at t₀ ∈ [0,1], the sampled nearest-
point search returns a parameter within one sampling step of t₀. -/
theorem findNearestRibbonT_within_step (t0 : ℝ) (h0 : 0 ≤ t0) (h1 : t0 ≤ 1) :
    |findNearestRibbonT (ribbonPoint t0) - t0| ≤ 0.02 := by
  obtain ⟨hmem, hmin⟩ := findNearestRibbonT_spec (ribbonPoint t0)
  obtain ⟨n, hn, hnear, h3⟩ := exists_near_sample t0 h0 h1
  by_contra hcon
  push_neg at hcon
  have hfar : 0.02 < |t0 - findNearestRibbonT (ribbonPoint t0)| := by
    rwa [abs_sub_comm] at hcon
  obtain ⟨hts0, hts1⟩ := ribbonSamples_bounds _ hmem
  obtain ⟨hn0, hn1⟩ := ribbonSamples_bounds _ hn
  have hkey := far_sample_farther t0 n (findNearestRibbonT (ribbonPoint t0))
    h0 h1 hn0 hn1 hts0 hts1 hnear hfar (h3 _ hmem hfar)
  have hd : ribbonDist (ribbonPoint t0) n
      < ribbonDist (ribbonPoint t0) (findNearestRibbonT (ribbonPoint t0)) := by
    unfold ribbonDist
    exact Real.sqrt_lt_sqrt (by unfold ribbonDistSq; positivity) hkey
  exact absurd (hmin n hn) (not_le.mpr hd)

/- Projection facts for the frame phases: the easing phase only moves
position and look-at, the delay phase only the countdown. -/

theorem easeStep_ribbonTime (δ a b c d : ℝ) (s : CamState) :
    (easeStep δ a b c d s).ribbonTime = s.ribbonTime := rfl

theorem easeStep_velocity (δ a b c d : ℝ) (s : CamState) :
    (easeStep δ a b c d s).velocity = s.velocity := rfl

theorem easeStep_transitionDelay (δ a b c d : ℝ) (s : CamState) :
    (easeStep δ a b c d s).transitionDelay = s.transitionDelay := rfl

theorem easeStep_isAtStar (δ a b c d : ℝ) (s : CamState) :
    (easeStep δ a b c d s).isAtStar = s.isAtStar := rfl

theorem easeStep_smoothZoom (δ a b c d : ℝ) (s : CamState) :
    (easeStep δ a b c d s).smoothZoom = s.smoothZoom := rfl

theorem easeStep_prevState (δ a b c d : ℝ) (s : CamState) :
    (easeStep δ a b c d s).prevState = s.prevState := rfl

theorem easeStep_hasInitialized (δ a b c d : ℝ) (s : CamState) :
    (easeStep δ a b c d s).hasInitialized = s.hasInitialized := rfl

theorem easeStep_targetVelocity (δ a b c d : ℝ) (s : CamState) :
    (easeStep δ a b c d s).targetVelocity = s.targetVelocity := rfl

theorem delayStep_ribbonTime (δ : ℝ) (s : CamState) :
    (delayStep δ s).ribbonTime = s.ribbonTime := by
  unfold delayStep
  split <;> rfl

theorem delayStep_velocity (δ : ℝ) (s : CamState) :
    (delayStep δ s).velocity = s.velocity := by
  unfold delayStep
  split <;> rfl

theorem delayStep_isAtStar (δ : ℝ) (s : CamState) :
    (delayStep δ s).isAtStar = s.isAtStar := by
  unfold delayStep
  split <;> rfl

theorem delayStep_position (δ : ℝ) (s : CamState) :
    (delayStep δ s).position = s.position := by
  unfold delayStep
  split <;> rfl

theorem delayStep_target (δ : ℝ) (s : CamState) :
    (delayStep δ s).target = s.target := by
  unfold delayStep
  split <;> rfl

theorem delayStep_smoothZoom (δ : ℝ) (s : CamState) :
    (delayStep δ s).smoothZoom = s.smoothZoom := by
  unfold delayStep
  split <;> rfl

theorem delayStep_prevState (δ : ℝ) (s : CamState) :
    (delayStep δ s).prevState = s.prevState := by
  unfold delayStep
  split <;> rfl

theorem delayStep_hasInitialized (δ : ℝ) (s : CamState) :
    (delayStep δ s).hasInitialized = s.hasInitialized := by
  unfold delayStep
  split <;> rfl

theorem delayStep_targetVelocity (δ : ℝ) (s : CamState) :
    (delayStep δ s).targetVelocity = s.targetVelocity := by
  unfold delayStep
  split <;> rfl

theorem delayStep_transitionDelay (δ : ℝ) (s : CamState) :
    (delayStep δ s).transitionDelay
      = if s.transitionDelay > 0 then s.transitionDelay - δ
        else s.transitionDelay := by
  unfold delayStep
  split <;> simp_all

/-- C6: on every frame that enters tree from a non-tree state, the
controller stores the sampled nearest spiral parameter (within one 0.02
step of the camera's exact parameter when the camera sits on the spiral),
arms the 2.0-second delay (ticked by this frame's δ), resets velocity to
0.05 and clears the reached-focal-point flag (also signalling false). -/
theorem claim_C6_enter_tree (inp : CamInput) (δ t0 : ℝ) (s : CamState)
    (hstate : inp.state = TreeState.tree) (hprev : s.prevState ≠ TreeState.tree)
    (hpos : s.position = ribbonPoint t0) (ht0 : 0 ≤ t0) (ht1 : t0 ≤ 1)
    (hδ0 : 0 ≤ δ) (hδ2 : δ < 2) :
    (frameStep inp δ s).1.ribbonTime = findNearestRibbonT s.position
    ∧ |(frameStep inp δ s).1.ribbonTime - t0| ≤ 0.02
    ∧ (frameStep inp δ s).1.transitionDelay = 2.0 - δ
    ∧ (frameStep inp δ s).1.velocity = 0.05
    ∧ (frameStep inp δ s).1.isAtStar = false
    ∧ (frameStep inp δ s).2 = [false] := by
  have hcond : inp.state = TreeState.tree ∧
      (smoothZoomStep inp.zoom δ s).prevState ≠ TreeState.tree :=
    ⟨hstate, hprev⟩
  have hedge : edgeStep inp.state (smoothZoomStep inp.zoom δ s)
      = ({ smoothZoomStep inp.zoom δ s with
            transitionDelay := 2.0,
            ribbonTime := findNearestRibbonT (smoothZoomStep inp.zoom δ s).position,
            isAtStar := false,
            velocity := 0.05,
            hasInitialized := true,
            prevState := inp.state }, [false]) := by
    unfold edgeStep
    rw [if_pos hcond]
  simp only [frameStep, hedge]
  split_ifs with h1 h2 h3
  · exfalso
    rw [delayStep_transitionDelay] at h1
    revert h1
    norm_num
    intro h1
    linarith
  · exfalso
    rw [delayStep_transitionDelay] at h1
    revert h1
    norm_num
    intro h1
    linarith
  · exfalso
    rw [hstate] at h3
    simp at h3
  · refine ⟨?_, ?_, ?_, ?_, ?_, by simp⟩
    · simp [easeStep_ribbonTime, delayStep_ribbonTime, smoothZoomStep]
    · simp only [easeStep_ribbonTime, delayStep_ribbonTime]
      have hp : (smoothZoomStep inp.zoom δ s).position = s.position := rfl
      simp only [hp]
      rw [hpos]
      exact findNearestRibbonT_within_step t0 ht0 ht1
    · simp [easeStep_transitionDelay, delayStep_transitionDelay]
      norm_num
    · simp [easeStep_velocity, delayStep_velocity]
    · simp [easeStep_isAtStar, delayStep_isAtStar]

/-- Concrete inputs for the C6 witness: camera sitting exactly on the
spiral at t₀ = 0, entering tree from galaxy. -/
noncomputable def c6Input : CamInput := ⟨TreeState.tree, 0, 0, Option.none, 0⟩

noncomputable def c6State : CamState :=
  ⟨⟨0, 0, 0⟩, ribbonPoint 0, 0, TreeState.galaxy, 0, false, false, 0.15, 0.15, 0⟩

/-- Witness for C6 at t₀ = 0, δ = 0. -/
theorem claim_C6_witness :
    (frameStep c6Input 0 c6State).1.ribbonTime = findNearestRibbonT c6State.position
    ∧ |(frameStep c6Input 0 c6State).1.ribbonTime - 0| ≤ 0.02
    ∧ (frameStep c6Input 0 c6State).1.transitionDelay = 2.0 - 0
    ∧ (frameStep c6Input 0 c6State).1.velocity = 0.05
    ∧ (frameStep c6Input 0 c6State).1.isAtStar = false
    ∧ (frameStep c6Input 0 c6State).2 = [false] :=
  claim_C6_enter_tree c6Input 0 0 c6State rfl (by decide) rfl
    (le_refl 0) zero_le_one (le_refl 0) zero_lt_two

theorem climbStep_transitionDelay (δ : ℝ) (s : CamState) :
    (climbStep δ s).1.transitionDelay = s.transitionDelay := by
  unfold climbStep
  dsimp only
  split <;> rfl

theorem climbStep_prevState (δ : ℝ) (s : CamState) :
    (climbStep δ s).1.prevState = s.prevState := by
  unfold climbStep
  dsimp only
  split <;> rfl

theorem climbStep_congr (δ : ℝ) (s s' : CamState)
    (ht : s.ribbonTime = s'.ribbonTime) (hv : s.velocity = s'.velocity)
    (hst : s.isAtStar = s'.isAtStar) :
    (climbStep δ s).1.ribbonTime = (climbStep δ s').1.ribbonTime
    ∧ (climbStep δ s).1.velocity = (climbStep δ s').1.velocity
    ∧ (climbStep δ s).1.isAtStar = (climbStep δ s').1.isAtStar
    ∧ (climbStep δ s).2 = (climbStep δ s').2 := by
  unfold climbStep
  dsimp only
  rw [ht, hv]
  split <;> simp [hst]

/-- Reduction of the frame step in an ongoing-climb frame (tree state held,
delay elapsed, focal flag clear): the climb phase decides ribbon time,
velocity, flag and events; delay and previous-state are untouched. -/
theorem frameStep_climbing (inp : CamInput) (δ : ℝ) (s : CamState)
    (hstate : inp.state = TreeState.tree) (hprev : s.prevState = TreeState.tree)
    (hdelay : s.transitionDelay ≤ 0) (hstar : s.isAtStar = false) :
    (frameStep inp δ s).1.ribbonTime = (climbStep δ s).1.ribbonTime
    ∧ (frameStep inp δ s).1.velocity = (climbStep δ s).1.velocity
    ∧ (frameStep inp δ s).1.isAtStar = (climbStep δ s).1.isAtStar
    ∧ (frameStep inp δ s).1.transitionDelay = s.transitionDelay
    ∧ (frameStep inp δ s).1.prevState = TreeState.tree
    ∧ (frameStep inp δ s).2 = (climbStep δ s).2 := by
  have hnedge1 : ¬ (inp.state = TreeState.tree ∧
      (smoothZoomStep inp.zoom δ s).prevState ≠ TreeState.tree) := by
    rintro ⟨-, hne⟩
    exact hne hprev
  have hnedge2 : ¬ (inp.state ≠ TreeState.tree ∧
      (smoothZoomStep inp.zoom δ s).prevState = TreeState.tree) := by
    rintro ⟨hne, -⟩
    exact hne hstate
  have hedge : edgeStep inp.state (smoothZoomStep inp.zoom δ s)
      = ({ smoothZoomStep inp.zoom δ s with prevState := inp.state }, []) := by
    unfold edgeStep
    rw [if_neg hnedge1, if_neg hnedge2]
  have hdel : delayStep δ { smoothZoomStep inp.zoom δ s with prevState := inp.state }
      = { smoothZoomStep inp.zoom δ s with prevState := inp.state } := by
    unfold delayStep
    rw [if_neg]
    simp only [smoothZoomStep]
    exact not_lt.mpr hdelay
  obtain ⟨hct, hcv, hcs, hce⟩ := climbStep_congr δ
    { smoothZoomStep inp.zoom δ s with prevState := inp.state } s rfl rfl rfl
  simp only [frameStep, hedge, hdel]
  rw [if_pos ⟨hstate, by simpa [smoothZoomStep] using hdelay⟩, if_pos (by
    simpa [smoothZoomStep] using hstar)]
  refine ⟨?_, ?_, ?_, ?_, ?_, ?_⟩
  · simpa [easeStep_ribbonTime] using hct
  · simpa [easeStep_velocity] using hcv
  · simpa [easeStep_isAtStar] using hcs
  · simp [easeStep_transitionDelay, climbStep_transitionDelay, smoothZoomStep]
  · simp [easeStep_prevState, climbStep_prevState, hstate, smoothZoomStep]
  · simpa using hce

/-- Reduction of the frame step once the focal point is reached: nothing of
the climb state changes and no event fires. -/
theorem frameStep_atStar (inp : CamInput) (δ : ℝ) (s : CamState)
    (hstate : inp.state = TreeState.tree) (hprev : s.prevState = TreeState.tree)
    (hdelay : s.transitionDelay ≤ 0) (hstar : s.isAtStar = true) :
    (frameStep inp δ s).1.ribbonTime = s.ribbonTime
    ∧ (frameStep inp δ s).1.velocity = s.velocity
    ∧ (frameStep inp δ s).1.isAtStar = true
    ∧ (frameStep inp δ s).1.transitionDelay = s.transitionDelay
    ∧ (frameStep inp δ s).1.prevState = TreeState.tree
    ∧ (frameStep inp δ s).2 = [] := by
  have hnedge1 : ¬ (inp.state = TreeState.tree ∧
      (smoothZoomStep inp.zoom δ s).prevState ≠ TreeState.tree) := by
    rintro ⟨-, hne⟩
    exact hne hprev
  have hnedge2 : ¬ (inp.state ≠ TreeState.tree ∧
      (smoothZoomStep inp.zoom δ s).prevState = TreeState.tree) := by
    rintro ⟨hne, -⟩
    exact hne hstate
  have hedge : edgeStep inp.state (smoothZoomStep inp.zoom δ s)
      = ({ smoothZoomStep inp.zoom δ s with prevState := inp.state }, []) := by
    unfold edgeStep
    rw [if_neg hnedge1, if_neg hnedge2]
  have hdel : delayStep δ { smoothZoomStep inp.zoom δ s with prevState := inp.state }
      = { smoothZoomStep inp.zoom δ s with prevState := inp.state } := by
    unfold delayStep
    rw [if_neg]
    simp only [smoothZoomStep]
    exact not_lt.mpr hdelay
  simp only [frameStep, hedge, hdel]
  rw [if_pos ⟨hstate, by simpa [smoothZoomStep] using hdelay⟩, if_neg (by
    simp [smoothZoomStep, hstar])]
  refine ⟨?_, ?_, ?_, ?_, ?_, rfl⟩
  · simp [easeStep_ribbonTime, smoothZoomStep]
  · simp [easeStep_velocity, smoothZoomStep]
  · simp [easeStep_isAtStar, smoothZoomStep, hstar]
  · simp [easeStep_transitionDelay, smoothZoomStep]
  · simp [easeStep_prevState, hstate]

/-- Arithmetic of one climb advance with a bounded frame delta: t never
decreases, both t and the velocity stay inside their ranges, the flag is
set exactly when t clamps to 1, and the star event fires exactly then. -/
theorem climbStep_spec (δ : ℝ) (s : CamState)
    (hδ0 : 0 ≤ δ) (hδ4 : δ ≤ 0.4)
    (ht0 : 0 ≤ s.ribbonTime) (ht1 : s.ribbonTime ≤ 1)
    (hv0 : 0 ≤ s.velocity) (hv1 : s.velocity ≤ 0.12)
    (hstar : s.isAtStar = false) :
    s.ribbonTime ≤ (climbStep δ s).1.ribbonTime
    ∧ 0 ≤ (climbStep δ s).1.ribbonTime
    ∧ (climbStep δ s).1.ribbonTime ≤ 1
    ∧ 0 ≤ (climbStep δ s).1.velocity
    ∧ (climbStep δ s).1.velocity ≤ 0.12
    ∧ ((climbStep δ s).1.isAtStar = true → (climbStep δ s).1.ribbonTime = 1)
    ∧ (climbStep δ s).2
        = (if (climbStep δ s).1.isAtStar = true then [true] else []) := by
  have hsin0 : 0 ≤ Real.sin (s.ribbonTime * Real.pi) :=
    Real.sin_nonneg_of_nonneg_of_le_pi
      (by positivity)
      (by nlinarith [Real.pi_pos])
  have hsin1 : Real.sin (s.ribbonTime * Real.pi) ≤ 1 := Real.sin_le_one _
  unfold climbStep
  dsimp only
  set tv := 5e-2 + Real.sin (s.ribbonTime * Real.pi) * (0.12 - 5e-2) with htv
  have htv0 : 0.05 ≤ tv := by
    rw [htv]
    nlinarith
  have htv1 : tv ≤ 0.12 := by
    rw [htv]
    nlinarith
  set v' := s.velocity + (tv - s.velocity) * 2.5 * δ with hv'
  have hv'0 : 0 ≤ v' := by
    rw [hv']
    nlinarith
  have hv'1 : v' ≤ 0.12 := by
    rw [hv']
    nlinarith
  set t' := s.ribbonTime + v' * δ with ht'
  have ht'ge : s.ribbonTime ≤ t' := by
    rw [ht']
    nlinarith
  split
  · rename_i hclamp
    refine ⟨ht1, by norm_num, le_refl 1, hv'0, hv'1, fun _ => rfl, by simp⟩
  · rename_i hclamp
    push_neg at hclamp
    refine ⟨ht'ge, by linarith, le_of_lt hclamp, hv'0, hv'1, ?_, by simp [hstar]⟩
    intro hfalse
    rw [hstar] at hfalse
    exact absurd hfalse (by simp)

/-- Invariant of the climb portion of the controller state. -/
def ClimbInv (s : CamState) : Prop :=
  s.prevState = TreeState.tree ∧ s.transitionDelay ≤ 0
  ∧ 0 ≤ s.ribbonTime ∧ s.ribbonTime ≤ 1
  ∧ 0 ≤ s.velocity ∧ s.velocity ≤ 0.12
  ∧ (s.isAtStar = true → s.ribbonTime = 1)

theorem frameStep_climb_inv (inp : CamInput) (δ : ℝ) (s : CamState)
    (hstate : inp.state = TreeState.tree) (hδ0 : 0 ≤ δ) (hδ4 : δ ≤ 0.4)
    (hinv : ClimbInv s) :
    ClimbInv (frameStep inp δ s).1
    ∧ s.ribbonTime ≤ (frameStep inp δ s).1.ribbonTime
    ∧ (s.isAtStar = true → (frameStep inp δ s).1.isAtStar = true
        ∧ (frameStep inp δ s).2 = [])
    ∧ (s.isAtStar = false →
        (frameStep inp δ s).2
          = (if (frameStep inp δ s).1.isAtStar = true then [true] else [])) := by
  obtain ⟨hprev, hdelay, ht0, ht1, hv0, hv1, hstar1⟩ := hinv
  cases hfl : s.isAtStar with
  | true =>
    obtain ⟨h1, h2, h3, h4, h5, h6⟩ := frameStep_atStar inp δ s hstate hprev hdelay hfl
    refine ⟨⟨h5, ?_, ?_, ?_, ?_, ?_, ?_⟩, ?_, ?_, ?_⟩
    · rw [h4]
      exact hdelay
    · rw [h1]
      exact ht0
    · rw [h1]
      exact ht1
    · rw [h2]
      exact hv0
    · rw [h2]
      exact hv1
    · intro _
      rw [h1]
      exact hstar1 hfl
    · rw [h1]
    · intro _
      exact ⟨h3, h6⟩
    · intro hc
      exact Bool.noConfusion hc
  | false =>
    obtain ⟨h1, h2, h3, h4, h5, h6⟩ := frameStep_climbing inp δ s hstate hprev hdelay hfl
    obtain ⟨c1, c2, c3, c4, c5, c6, c7⟩ :=
      climbStep_spec δ s hδ0 hδ4 ht0 ht1 hv0 hv1 hfl
    refine ⟨⟨h5, ?_, ?_, ?_, ?_, ?_, ?_⟩, ?_, ?_, ?_⟩
    · rw [h4]
      exact hdelay
    · rw [h1]
      exact c2
    · rw [h1]
      exact c3
    · rw [h2]
      exact c4
    · rw [h2]
      exact c5
    · intro hT
      rw [h1]
      exact c6 (by rw [← h3]; exact hT)
    · rw [h1]
      exact c1
    · intro hc
      exact Bool.noConfusion hc
    · intro _
      rw [h6, c7, h3]

theorem runFrames_climb_inv (inp : CamInput) (hstate : inp.state = TreeState.tree) :
    ∀ (ds : List ℝ) (s : CamState),
      (∀ d ∈ ds, 0 ≤ d ∧ d ≤ 0.4) → ClimbInv s →
      ClimbInv (runFrames inp s ds).1
      ∧ s.ribbonTime ≤ (runFrames inp s ds).1.ribbonTime
      ∧ (s.isAtStar = true → (runFrames inp s ds).1.isAtStar = true
          ∧ (runFrames inp s ds).2 = [])
      ∧ (s.isAtStar = false →
          (runFrames inp s ds).2
            = (if (runFrames inp s ds).1.isAtStar = true then [true] else [])) := by
  intro ds
  induction ds with
  | nil =>
    intro s _ hinv
    refine ⟨hinv, le_refl _, fun hT => ⟨hT, rfl⟩, fun hF => ?_⟩
    simp only [runFrames]
    simp [hF]
  | cons d rest ih =>
    intro s hds hinv
    have hd := hds d (List.mem_cons_self d rest)
    obtain ⟨hinv', hmono, htrue, hfalse⟩ :=
      frameStep_climb_inv inp d s hstate hd.1 hd.2 hinv
    obtain ⟨rinv, rmono, rtrue, rfalse⟩ :=
      ih (frameStep inp d s).1 (fun x hx => hds x (List.mem_cons_of_mem _ hx)) hinv'
    refine ⟨rinv, le_trans hmono rmono, ?_, ?_⟩
    · intro hT
      obtain ⟨hT', hev⟩ := htrue hT
      obtain ⟨rT, rev⟩ := rtrue hT'
      exact ⟨rT, by simp only [runFrames]; rw [hev, rev]; rfl⟩
    · intro hF
      cases hfl' : (frameStep inp d s).1.isAtStar with
      | true =>
        obtain ⟨rT, rev⟩ := rtrue hfl'
        simp only [runFrames]
        rw [hfalse hF, hfl', rev, if_pos rT]
        simp
      | false =>
        simp only [runFrames]
        rw [hfalse hF, hfl', rfalse hfl']
        simp

/-- Concrete climbing state for the C7 counterexample: delay elapsed, flag
clear, t = 0, velocity 0.12 (the profile's own maximum). -/
noncomputable def c7Input : CamInput := ⟨TreeState.tree, 0, 0, Option.none, 0⟩

noncomputable def c7State : CamState :=
  ⟨⟨0, 0, 0⟩, ⟨0, 0, 0⟩, 0, TreeState.tree, 0, false, true, 0.12, 0.15, 0⟩

theorem c7_climb_velocity : (climbStep 10 c7State).1.velocity = -1.63
    ∧ (climbStep 10 c7State).1.ribbonTime = -16.3 := by
  unfold climbStep
  dsimp only
  norm_num [c7State, Real.sin_zero]

/-- C7 counterexample: in a climbing frame (tree held, delay elapsed, focal
flag clear) with the non-negative frame delta 10 s, the eased-velocity
filter overshoots: velocity becomes negative and t decreases below 0, so
the claimed monotonicity / clamping / non-negative-velocity invariants all
fail for unbounded non-negative Δt. -/
theorem claim_C7_counterexample :
    c7Input.state = TreeState.tree
    ∧ c7State.prevState = TreeState.tree
    ∧ c7State.transitionDelay ≤ 0
    ∧ c7State.isAtStar = false
    ∧ 0 ≤ c7State.ribbonTime ∧ c7State.ribbonTime ≤ 1
    ∧ 0 ≤ c7State.velocity
    ∧ (0 : ℝ) ≤ 10
    ∧ (frameStep c7Input 10 c7State).1.velocity < 0
    ∧ (frameStep c7Input 10 c7State).1.ribbonTime < c7State.ribbonTime
    ∧ (frameStep c7Input 10 c7State).1.ribbonTime < 0 := by
  obtain ⟨h1, h2, -, -, -, -⟩ :=
    frameStep_climbing c7Input 10 c7State rfl rfl (le_refl 0) rfl
  obtain ⟨hcv, hct⟩ := c7_climb_velocity
  refine ⟨rfl, rfl, le_refl 0, rfl, le_refl 0, ?_, ?_, ?_, ?_, ?_, ?_⟩
  · norm_num [c7State]
  · norm_num [c7State]
  · norm_num
  · rw [h2, hcv]
    norm_num
  · rw [h1, hct]
    norm_num [c7State]
  · rw [h1, hct]
    norm_num

/-- C7 amended: while climbing, for frames whose delta lies in [0, 0.4]
(so the rate-2.5 velocity filter cannot overshoot), t never decreases, t
stays in [0, 1] (clamped to 1), velocity stays non-negative, the focal flag
implies t = 1, and the reached-focal-point event fires exactly once per
climb (the run's event list is exactly [true] when the climb completed and
empty otherwise). -/
theorem claim_C7_climb_bounded (inp : CamInput) (s : CamState) (ds : List ℝ)
    (hstate : inp.state = TreeState.tree) (hprev : s.prevState = TreeState.tree)
    (hdelay : s.transitionDelay ≤ 0) (hstar : s.isAtStar = false)
    (ht0 : 0 ≤ s.ribbonTime) (ht1 : s.ribbonTime ≤ 1)
    (hv0 : 0 ≤ s.velocity) (hv1 : s.velocity ≤ 0.12)
    (hds : ∀ d ∈ ds, 0 ≤ d ∧ d ≤ 0.4) :
    s.ribbonTime ≤ (runFrames inp s ds).1.ribbonTime
    ∧ 0 ≤ (runFrames inp s ds).1.ribbonTime
    ∧ (runFrames inp s ds).1.ribbonTime ≤ 1
    ∧ 0 ≤ (runFrames inp s ds).1.velocity
    ∧ ((runFrames inp s ds).1.isAtStar = true
        → (runFrames inp s ds).1.ribbonTime = 1)
    ∧ ((runFrames inp s ds).2
        = if (runFrames inp s ds).1.isAtStar = true then [true] else []) := by
  have hstart : ClimbInv s :=
    ⟨hprev, hdelay, ht0, ht1, hv0, hv1,
     fun h => by rw [hstar] at h; exact Bool.noConfusion h⟩
  obtain ⟨⟨_, _, r3, r4, r5, _, r7⟩, rmono, _, rfalse⟩ :=
    runFrames_climb_inv inp hstate ds s hds hstart
  exact ⟨rmono, r3, r4, r5, r7, rfalse hstar⟩

/-- Concrete climbing run for the C7 witness. -/
noncomputable def c7wInput : CamInput := ⟨TreeState.tree, 0, 0, Option.none, 0⟩

noncomputable def c7wState : CamState :=
  ⟨⟨0, 0, 0⟩, ⟨0, 0, 0⟩, 0, TreeState.tree, 0, false, true, 0.05, 0.15, 0⟩

/-- Witness for the amended C7 on the one-frame run [0.1]. -/
theorem claim_C7_witness :
    c7wState.ribbonTime ≤ (runFrames c7wInput c7wState [0.1]).1.ribbonTime
    ∧ 0 ≤ (runFrames c7wInput c7wState [0.1]).1.ribbonTime
    ∧ (runFrames c7wInput c7wState [0.1]).1.ribbonTime ≤ 1
    ∧ 0 ≤ (runFrames c7wInput c7wState [0.1]).1.velocity
    ∧ ((runFrames c7wInput c7wState [0.1]).1.isAtStar = true
        → (runFrames c7wInput c7wState [0.1]).1.ribbonTime = 1)
    ∧ ((runFrames c7wInput c7wState [0.1]).2
        = if (runFrames c7wInput c7wState [0.1]).1.isAtStar = true
          then [true] else []) :=
  claim_C7_climb_bounded c7wInput c7wState [0.1] rfl rfl (le_refl 0) rfl
    (le_refl 0) zero_le_one (by norm_num [c7wState]) (by norm_num [c7wState])
    (by
      intro d hd
      rw [List.mem_singleton] at hd
      rw [hd]
      norm_num)

theorem smoothZoomStep_zero (zoom : ℝ) (s : CamState) :
    smoothZoomStep zoom 0 s = s := by
  unfold smoothZoomStep
  have h : s.smoothZoom + (zoom - s.smoothZoom) * 5 * 0 = s.smoothZoom := by ring
  rw [h]

theorem delayStep_zero (s : CamState) : delayStep 0 s = s := by
  unfold delayStep
  split
  · have h : s.transitionDelay - 0 = s.transitionDelay := by ring
    rw [h]
  · rfl

theorem easeStep_zero (a b c d : ℝ) (s : CamState) : easeStep 0 a b c d s = s := by
  unfold easeStep
  dsimp only
  have hsf : 1 - Real.exp (-2.5 * 0) = 0 := by
    norm_num [Real.exp_zero]
  rw [hsf]
  have h1 : s.position.x + (a - s.position.x) * 0 = s.position.x := by ring
  have h2 : s.position.y + (b - s.position.y) * 0 = s.position.y := by ring
  have h3 : s.position.z + (c - s.position.z) * 0 = s.position.z := by ring
  have h4 : s.target.y + (d - s.target.y) * 0 = s.target.y := by ring
  rw [h1, h2, h3, h4]

theorem climbStep_zero (s : CamState) (hlt : s.ribbonTime < 1) :
    climbStep 0 s
      = ({ s with targetVelocity :=
            0.05 + Real.sin (s.ribbonTime * Real.pi) * (0.12 - 0.05) }, []) := by
  unfold climbStep
  dsimp only
  have hv : s.velocity + (5e-2 + Real.sin (s.ribbonTime * Real.pi) * (0.12 - 5e-2)
      - s.velocity) * 2.5 * 0 = s.velocity := by ring
  rw [hv]
  have ht : s.ribbonTime + s.velocity * 0 = s.ribbonTime := by ring
  rw [ht]
  rw [if_neg (not_le.mpr hlt)]

/-- C8 amended (zero-delta part): a frame step with Δt = 0, in a frame with
no application-state edge and not at the exact climb endpoint (t ≥ 1 with
the flag still clear), leaves every CameraMotionState field of the spec's
data model — position, look-at target, ribbon t, velocity, transition
delay, reached flag, smoothed zoom — and the frame outputs unchanged, and
emits nothing. -/
theorem claim_C8_amended (inp : CamInput) (s : CamState)
    (hprev : inp.state = s.prevState)
    (hcorner : inp.state = TreeState.tree → s.transitionDelay ≤ 0 →
      s.isAtStar = false → s.ribbonTime < 1) :
    (frameStep inp 0 s).1.ribbonTime = s.ribbonTime
    ∧ (frameStep inp 0 s).1.velocity = s.velocity
    ∧ (frameStep inp 0 s).1.transitionDelay = s.transitionDelay
    ∧ (frameStep inp 0 s).1.isAtStar = s.isAtStar
    ∧ (frameStep inp 0 s).1.smoothZoom = s.smoothZoom
    ∧ (frameStep inp 0 s).1.position = s.position
    ∧ (frameStep inp 0 s).1.target = s.target
    ∧ (frameStep inp 0 s).1.prevState = s.prevState
    ∧ (frameStep inp 0 s).1.hasInitialized = s.hasInitialized
    ∧ (frameStep inp 0 s).2 = [] := by
  have hnedge1 : ¬ (inp.state = TreeState.tree ∧ s.prevState ≠ TreeState.tree) := by
    rintro ⟨h1, h2⟩
    exact h2 (hprev ▸ h1)
  have hnedge2 : ¬ (inp.state ≠ TreeState.tree ∧ s.prevState = TreeState.tree) := by
    rintro ⟨h1, h2⟩
    exact h1 (hprev.trans h2)
  have hedge : edgeStep inp.state s = ({ s with prevState := inp.state }, []) := by
    unfold edgeStep
    rw [if_neg hnedge1, if_neg hnedge2]
  have hrec : ({ s with prevState := inp.state } : CamState) = s := by
    rw [hprev]
  simp only [frameStep, smoothZoomStep_zero, hedge, hrec, delayStep_zero]
  split_ifs with h1 h2
  · rw [climbStep_zero s (hcorner h1.1 h1.2 h2)]
    simp [easeStep_zero]
  all_goals simp [easeStep_zero]

noncomputable def c8Input : CamInput := ⟨TreeState.galaxy, 0, 0, Option.none, 1⟩

noncomputable def c8State : CamState :=
  ⟨⟨0, 0, 0⟩, ⟨0, 2, 12⟩, 0, TreeState.galaxy, 0, false, false, 0, 0.15, 0⟩

/-- C8 counterexample: a frame step with the negative delta −1 s is not an
identity on the smoothed state — in galaxy state with zoom prop 1 and
smoothed zoom 0, the zoom lerp of line 84 moves the smoothed zoom to −5
(away from the target, since the lerp factor 5·Δt is negative). -/
theorem edgeStep_smoothZoom (st : TreeState) (s : CamState) :
    (edgeStep st s).1.smoothZoom = s.smoothZoom := by
  unfold edgeStep
  split_ifs <;> rfl

theorem claim_C8_counterexample :
    c8State.smoothZoom = 0
    ∧ (frameStep c8Input (-1) c8State).1.smoothZoom = -5 := by
  constructor
  · norm_num [c8State]
  · have h1 : ∀ x : ℝ, ¬ (c8Input.state = TreeState.tree ∧ x ≤ 0) := by
      rintro x ⟨h, -⟩
      exact nomatch h
    have h2 : ∀ p : Prop, ¬ (c8Input.handPosition.isSome = true ∧ p) := by
      rintro p ⟨h, -⟩
      exact nomatch h
    simp only [frameStep]
    rw [if_neg (h1 _), if_neg (h2 _)]
    simp only [easeStep_smoothZoom, delayStep_smoothZoom, edgeStep_smoothZoom,
      smoothZoomStep]
    norm_num [c8State, c8Input]

noncomputable def c8wInput : CamInput := ⟨TreeState.galaxy, 0.3, 0.7, Option.none, 2⟩

noncomputable def c8wState : CamState :=
  ⟨⟨0, 1, 0⟩, ⟨3, 2, 9⟩, 0.4, TreeState.galaxy, 0, false, true, 0.08, 0.1, 0.5⟩

/-- C8 witness: the zero-delta identity instantiated in galaxy state. -/
theorem claim_C8_witness :
    (frameStep c8wInput 0 c8wState).1.ribbonTime = c8wState.ribbonTime
    ∧ (frameStep c8wInput 0 c8wState).1.velocity = c8wState.velocity
    ∧ (frameStep c8wInput 0 c8wState).1.transitionDelay = c8wState.transitionDelay
    ∧ (frameStep c8wInput 0 c8wState).1.isAtStar = c8wState.isAtStar
    ∧ (frameStep c8wInput 0 c8wState).1.smoothZoom = c8wState.smoothZoom
    ∧ (frameStep c8wInput 0 c8wState).1.position = c8wState.position
    ∧ (frameStep c8wInput 0 c8wState).1.target = c8wState.target
    ∧ (frameStep c8wInput 0 c8wState).1.prevState = c8wState.prevState
    ∧ (frameStep c8wInput 0 c8wState).1.hasInitialized = c8wState.hasInitialized
    ∧ (frameStep c8wInput 0 c8wState).2 = [] :=
  claim_C8_amended c8wInput c8wState rfl (fun h => absurd h (by decide))
